import Mathlib

/-!
# Verification of the socket relay server

A shallow embedding of the room-based fan-out relay implemented in the
repository (the Socket.IO server in `src/unnamed/part_001`).  The file
models:

* the JSON-ish payload values the server destructures (`JVal`), with
  JavaScript truthiness for the `!field` guards of the HTTP endpoints;
* the relay state: the `connectedClients` map (socket id → client record
  with `userId` and the per-connection `rooms` set) together with the
  transport adapter's room-membership index (`io.sockets.adapter.rooms`,
  modelled as a total function from room names to member lists; a room
  with no entry and an empty room are both the empty list, matching
  `getRoomSize`'s `room ? room.size : 0`);
* the event handlers (`joinRoom`, `leaveRoom`, `register`, `disconnect`,
  `broadcast_comment_new`, `message`) as state transformers plus lists of
  deliveries, where a delivery records the destination socket, the event
  tag and the payload of one `emit`;
* the three HTTP broadcast endpoints (`/api/broadcast/game-comment/...`).

The adapter semantics of `socket.join` / `socket.leave` / disconnect
follow Socket.IO's documented behaviour: join adds the socket to the
room's set, leave removes it, and a disconnecting socket is removed from
every room.  The per-socket personal room (a Socket.IO transport artifact
outside the relay's channel namespace) is not part of the channel model.
Console logging is ignored throughout: it carries no relay state.
-/

/-- A JSON value as the server sees it after `express.json()` parsing or a
Socket.IO event payload.  Integers stand for JS numbers (the payloads the
endpoints handle are ids and text). -/
inductive JVal where
  | jnull : JVal
  | jbool : Bool → JVal
  | jnum : Int → JVal
  | jstr : String → JVal
  | jobj : List (String × JVal) → JVal
  | jarr : List JVal → JVal

open JVal

/-- Field lookup in a JSON object field list (first binding wins, as in a
parsed JSON object with distinct keys). -/
def lookupField : List (String × JVal) → String → Option JVal
  | [], _ => none
  | (k, v) :: rest, key => if k = key then some v else lookupField rest key

/-- JavaScript property access `v.key`: `none` stands for `undefined`
(absent field, or access on a non-object). -/
def jsGet : JVal → String → Option JVal
  | jobj fields, key => lookupField fields key
  | _, _ => none

/-- Property access on a possibly-undefined base, as in `comment.id` where
`comment` came out of a destructuring. -/
def jsGetOpt (o : Option JVal) (key : String) : Option JVal :=
  o.bind (fun v => jsGet v key)

/-- JavaScript truthiness of a value: `0`, the empty string, `false` and
`null` are falsy; every object and array is truthy. -/
def truthy : JVal → Bool
  | jnull => false
  | jbool b => b
  | jnum n => n != 0
  | jstr s => s != ""
  | jobj _ => true
  | jarr _ => true

/-- Truthiness of a possibly-undefined value (`undefined` is falsy), the
test performed by the `if (!gameId || !comment)` guards. -/
def truthyOpt : Option JVal → Bool
  | none => false
  | some v => truthy v

/-- JS string coercion as used by the template literal `game_${gameId}`.
The endpoints only ever interpolate numbers and strings; the remaining
cases follow JS coercion (array coercion is unused by the server). -/
def jsToString : JVal → String
  | jnull => "null"
  | jbool b => if b then "true" else "false"
  | jnum n => toString n
  | jstr s => s
  | jobj _ => "[object Object]"
  | jarr _ => ""

/-- The helper `getGameRoomName(gameId)` from the source: the template
literal `` `game_${gameId}` ``. -/
def getGameRoomName (gameId : JVal) : String :=
  "game_" ++ jsToString gameId

/-- Socket identifiers are opaque strings assigned by the transport. -/
abbrev Sid := String

/-- The `clientInfo` record stored in `connectedClients`: the optional
registered user id, the per-connection `rooms` set (a JS `Set`, modelled
as a duplicate-free list in insertion order), and the metadata fields. -/
structure ClientInfo where
  userId : Option String
  rooms : List String
  connectedAt : String
  ip : String

/-- JS `Set.add`: append the element unless it is already present. -/
def setAdd {α : Type} [DecidableEq α] (x : α) (l : List α) : List α :=
  if x ∈ l then l else l ++ [x]

/-- JS `Set.delete`: remove the element (a set holds it at most once). -/
def setDel {α : Type} [DecidableEq α] (x : α) (l : List α) : List α :=
  l.filter (fun y => y ≠ x)

/-- A JS `Map.get` on the `connectedClients` association list. -/
def mapGet : List (Sid × ClientInfo) → Sid → Option ClientInfo
  | [], _ => none
  | (k, v) :: rest, c => if k = c then some v else mapGet rest c

/-- A JS `Map.set`: overwrite the binding in place or append a fresh one. -/
def mapSet : List (Sid × ClientInfo) → Sid → ClientInfo → List (Sid × ClientInfo)
  | [], c, v => [(c, v)]
  | (k, w) :: rest, c, v =>
      if k = c then (k, v) :: rest else (k, w) :: mapSet rest c v

/-- Update the record bound to a key in place (the key is unique in a JS
`Map`, so updating the first binding is the map update). -/
def mapUpdate : List (Sid × ClientInfo) → Sid → (ClientInfo → ClientInfo) →
    List (Sid × ClientInfo)
  | [], _, _ => []
  | (k, v) :: rest, c, f =>
      if k = c then (k, f v) :: rest else (k, v) :: mapUpdate rest c f

/-- A JS `Map.delete`: drop the binding for the key. -/
def mapDelete : List (Sid × ClientInfo) → Sid → List (Sid × ClientInfo)
  | [], _ => []
  | (k, v) :: rest, c =>
      if k = c then mapDelete rest c else (k, v) :: mapDelete rest c

/-- The relay state: the `connectedClients` map plus the adapter's room
index.  `adapter r` is the member list of room `r` (empty when the room
does not exist, which the server never distinguishes from an existing
empty room). -/
structure ServerState where
  connectedClients : List (Sid × ClientInfo)
  adapter : String → List Sid

/-- The state of a freshly started server: no clients, no rooms. -/
def initState : ServerState :=
  { connectedClients := [], adapter := fun _ => [] }

/-- Lookup `connectedClients.get(socketId)`. -/
def lookupClient (st : ServerState) (c : Sid) : Option ClientInfo :=
  mapGet st.connectedClients c

/-- Is the connection live (its registry record exists)? -/
def isConn (st : ServerState) (c : Sid) : Bool :=
  (lookupClient st c).isSome

/-- The per-connection `clientInfo.rooms` set (empty for a dead socket,
whose record was deleted). -/
def clientRoomsOf (st : ServerState) (c : Sid) : List String :=
  match lookupClient st c with
  | some ci => ci.rooms
  | none => []

/-- The recorded `clientInfo.userId` association. -/
def clientUserIdOf (st : ServerState) (c : Sid) : Option String :=
  match lookupClient st c with
  | some ci => ci.userId
  | none => none

/-- The helper `getRoomSize(roomName)` from the source: the size of the adapter's
member set, `0` for a non-existent room. -/
def getRoomSize (st : ServerState) (roomName : String) : Nat :=
  (st.adapter roomName).length

/-- One delivered event: `emit(event, payload)` reaching socket `dest`. -/
structure Delivery where
  dest : Sid
  event : String
  payload : JVal

/-- Broadcast `io.to(roomName).emit(event, payload)`: fan the event out to every
current member of the room, in membership order. -/
def emitToRoom (st : ServerState) (roomName event : String) (payload : JVal) :
    List Delivery :=
  (st.adapter roomName).map (fun d => { dest := d, event := event, payload := payload })

/-- The exported `emitToGame(gameId, eventName, data)` from the source: resolve the
game room, snapshot its size, emit, and return the pre-emit client count
(the count is taken at broadcast initiation, not a delivery receipt). -/
def emitToGame (st : ServerState) (gameId : JVal) (eventName : String) (data : JVal) :
    Nat × List Delivery :=
  let roomName := getGameRoomName gameId
  let clientCount := getRoomSize st roomName
  (clientCount, emitToRoom st roomName eventName data)

/-- The `connection` handler: create the `clientInfo` record with an
empty `rooms` set and store it in `connectedClients`. -/
def connectStep (st : ServerState) (c : Sid) (ip now : String) : ServerState :=
  { st with connectedClients :=
      mapSet st.connectedClients c { userId := none, rooms := [], connectedAt := now, ip := ip } }

/-- The `joinRoom` handler's state change: `socket.join(room)` adds the
socket to the adapter's room set, and `clientInfo.rooms.add(room)`
records it in the per-connection set. -/
def joinStep (st : ServerState) (c : Sid) (room : String) : ServerState :=
  { connectedClients := mapUpdate st.connectedClients c
      (fun ci => { ci with rooms := setAdd room ci.rooms }),
    adapter := fun r => if r = room then setAdd c (st.adapter r) else st.adapter r }

/-- The `leaveRoom` handler: `socket.leave(room)` plus
`clientInfo.rooms.delete(room)`. -/
def leaveStep (st : ServerState) (c : Sid) (room : String) : ServerState :=
  { connectedClients := mapUpdate st.connectedClients c
      (fun ci => { ci with rooms := setDel room ci.rooms }),
    adapter := fun r => if r = room then setDel c (st.adapter r) else st.adapter r }

/-- The `register` handler: join the implicit `user_<userId>` room,
record the association on the client record, and add the room to the
per-connection set. -/
def registerStep (st : ServerState) (c : Sid) (userId : String) : ServerState :=
  let userRoom := "user_" ++ userId
  { connectedClients := mapUpdate st.connectedClients c
      (fun ci => { ci with userId := some userId, rooms := setAdd userRoom ci.rooms }),
    adapter := fun r => if r = userRoom then setAdd c (st.adapter r) else st.adapter r }

/-- The `disconnect` handler plus the transport's own cleanup: the
handler deletes the registry record (`connectedClients.delete`), and the
Socket.IO adapter removes a disconnecting socket from every room. -/
def disconnectStep (st : ServerState) (c : Sid) : ServerState :=
  { connectedClients := mapDelete st.connectedClients c,
    adapter := fun r => setDel c (st.adapter r) }

/-- The full `joinRoom` handler: the state change plus the `subscribed`
confirmation message echoed back to the joining socket alone. -/
def handleJoinRoom (st : ServerState) (c : Sid) (room : String) :
    ServerState × List Delivery :=
  (joinStep st c room,
    [{ dest := c, event := "message",
       payload := jobj [("room", jstr room),
         ("message", jobj [("type", jstr "subscribed"), ("status", jstr "success"),
           ("room", jstr room)])] }])

/-- The gated `broadcast_comment_new` handler: destructure
`{gameId, comment}`, drop the event if either is falsy, drop it (logged,
with no reply to the sender) unless the sender's own `clientInfo.rooms`
set contains the game room, else fan the comment out unchanged, tagged
`game_comment_new`. -/
def handleBroadcastCommentNew (st : ServerState) (c : Sid) (payload : JVal) :
    ServerState × List Delivery :=
  let gameId := jsGet payload "gameId"
  let comment := jsGet payload "comment"
  if !truthyOpt gameId || !truthyOpt comment then
    (st, [])
  else
    let roomName := getGameRoomName (gameId.getD jnull)
    match lookupClient st c with
    | some ci =>
        if roomName ∈ ci.rooms then
          (st, emitToRoom st roomName "game_comment_new" (comment.getD jnull))
        else
          (st, [])
    | none => (st, [])

/-- The full server's `message` handler: rebroadcast to the room, tagged
`message`, wrapping the payload as `{room, message, from: socket.id}`. -/
def handleMessage (st : ServerState) (c : Sid) (room : String) (message : JVal) :
    List Delivery :=
  emitToRoom st room "message"
    (jobj [("room", jstr room), ("message", message), ("from", jstr c)])

/-- The minimal server's `message` handler (the second file in
`src/unnamed/part_001`): rebroadcast to the room, tagged `message`, with
the raw `message` value as the payload (no wrapping). -/
def handleMessageMin (st : ServerState) (c : Sid) (room : String) (message : JVal) :
    List Delivery :=
  emitToRoom st room "message" message

/-- An HTTP response: the status code set by `res.status(...)` (200 when
only `res.json` is called) and the JSON body. -/
structure HttpResponse where
  status : Nat
  body : JVal

/-- The endpoint `POST /api/broadcast/game-comment/new`: 400 with the
enumerated `required` list when `gameId` or `comment` is falsy, 400 with
a bare error message when `comment.id` or `comment.text` is falsy, else
emit the comment unchanged to the game room and answer 200 with the
summary object.  `now` stands for `new Date().toISOString()`.  The state
is returned to make "no relay mutation" provable (the endpoint never
mutates it). -/
def postGameCommentNew (st : ServerState) (body : JVal) (now : String) :
    ServerState × HttpResponse × List Delivery :=
  let gameId := jsGet body "gameId"
  let comment := jsGet body "comment"
  if !truthyOpt gameId || !truthyOpt comment then
    (st, { status := 400,
           body := jobj [("error", jstr "Missing required fields"),
                         ("required", jarr [jstr "gameId", jstr "comment"])] }, [])
  else if !truthyOpt (jsGetOpt comment "id") || !truthyOpt (jsGetOpt comment "text") then
    (st, { status := 400,
           body := jobj [("error", jstr "Comment must have id and text fields")] }, [])
  else
    let g := gameId.getD jnull
    let cv := comment.getD jnull
    let roomName := getGameRoomName g
    let res := emitToGame st g "game_comment_new" cv
    (st, { status := 200,
           body := jobj [("success", jbool true), ("gameId", g),
                         ("room", jstr roomName), ("recipients", jnum (res.1 : Int)),
                         ("event", jstr "game_comment_new"), ("timestamp", jstr now)] },
     res.2)

/-- The endpoint `POST /api/broadcast/game-comment/edit`: as for `new`,
but only `comment.id` is required among the nested fields, and the event
is `game_comment_edit`. -/
def postGameCommentEdit (st : ServerState) (body : JVal) (now : String) :
    ServerState × HttpResponse × List Delivery :=
  let gameId := jsGet body "gameId"
  let comment := jsGet body "comment"
  if !truthyOpt gameId || !truthyOpt comment then
    (st, { status := 400,
           body := jobj [("error", jstr "Missing required fields"),
                         ("required", jarr [jstr "gameId", jstr "comment"])] }, [])
  else if !truthyOpt (jsGetOpt comment "id") then
    (st, { status := 400,
           body := jobj [("error", jstr "Comment must have id field")] }, [])
  else
    let g := gameId.getD jnull
    let cv := comment.getD jnull
    let roomName := getGameRoomName g
    let res := emitToGame st g "game_comment_edit" cv
    (st, { status := 200,
           body := jobj [("success", jbool true), ("gameId", g),
                         ("room", jstr roomName), ("recipients", jnum (res.1 : Int)),
                         ("event", jstr "game_comment_edit"), ("timestamp", jstr now)] },
     res.2)

/-- The endpoint `POST /api/broadcast/game-comment/delete`: requires the
top-level `gameId` and `commentId`; broadcasts `{id: commentId, gameId}`
tagged `game_comment_delete`. -/
def postGameCommentDelete (st : ServerState) (body : JVal) (now : String) :
    ServerState × HttpResponse × List Delivery :=
  let gameId := jsGet body "gameId"
  let commentId := jsGet body "commentId"
  if !truthyOpt gameId || !truthyOpt commentId then
    (st, { status := 400,
           body := jobj [("error", jstr "Missing required fields"),
                         ("required", jarr [jstr "gameId", jstr "commentId"])] }, [])
  else
    let g := gameId.getD jnull
    let cid := commentId.getD jnull
    let roomName := getGameRoomName g
    let res := emitToGame st g "game_comment_delete" (jobj [("id", cid), ("gameId", g)])
    (st, { status := 200,
           body := jobj [("success", jbool true), ("gameId", g), ("commentId", cid),
                         ("room", jstr roomName), ("recipients", jnum (res.1 : Int)),
                         ("event", jstr "game_comment_delete"), ("timestamp", jstr now)] },
     res.2)

/-- The three game-comment broadcast endpoints, indexed for statements
that quantify over them. -/
inductive GcEndpoint where
  | newC : GcEndpoint
  | editC : GcEndpoint
  | deleteC : GcEndpoint

/-- Dispatch to the endpoint's handler. -/
def gcPost : GcEndpoint → ServerState → JVal → String →
    ServerState × HttpResponse × List Delivery
  | .newC => postGameCommentNew
  | .editC => postGameCommentEdit
  | .deleteC => postGameCommentDelete

/-- The exact validation-failure condition of each endpoint, read off the
code's guards: some required (possibly nested) field is absent or falsy. -/
def gcMissing : GcEndpoint → JVal → Bool
  | .newC, body =>
      !truthyOpt (jsGet body "gameId") || !truthyOpt (jsGet body "comment")
        || !truthyOpt (jsGetOpt (jsGet body "comment") "id")
        || !truthyOpt (jsGetOpt (jsGet body "comment") "text")
  | .editC, body =>
      !truthyOpt (jsGet body "gameId") || !truthyOpt (jsGet body "comment")
        || !truthyOpt (jsGetOpt (jsGet body "comment") "id")
  | .deleteC, body =>
      !truthyOpt (jsGet body "gameId") || !truthyOpt (jsGet body "commentId")

/-- The endpoint's first (top-level) guard: a missing or falsy top-level
field.  Only this guard produces the enumerated `required` list. -/
def gcTopMissing : GcEndpoint → JVal → Bool
  | .newC, body => !truthyOpt (jsGet body "gameId") || !truthyOpt (jsGet body "comment")
  | .editC, body => !truthyOpt (jsGet body "gameId") || !truthyOpt (jsGet body "comment")
  | .deleteC, body => !truthyOpt (jsGet body "gameId") || !truthyOpt (jsGet body "commentId")

/-- The enumerated `required` list each endpoint's 400 response carries
when a top-level field is missing. -/
def gcRequired : GcEndpoint → JVal
  | .newC => jarr [jstr "gameId", jstr "comment"]
  | .editC => jarr [jstr "gameId", jstr "comment"]
  | .deleteC => jarr [jstr "gameId", jstr "commentId"]

/-- A relay operation, for stating invariants over whole executions.  The
broadcast constructor covers every fan-out (HTTP-triggered or
client-triggered): none of them mutates membership. -/
inductive Op where
  | connect (c : Sid) (ip now : String) : Op
  | joinRoom (c : Sid) (room : String) : Op
  | leaveRoom (c : Sid) (room : String) : Op
  | register (c : Sid) (userId : String) : Op
  | disconnect (c : Sid) : Op
  | broadcast (room event : String) (payload : JVal) : Op

/-- The state change of one operation (broadcasts read the adapter but
never write it). -/
def applyOp (st : ServerState) : Op → ServerState
  | .connect c ip now => connectStep st c ip now
  | .joinRoom c room => joinStep st c room
  | .leaveRoom c room => leaveStep st c room
  | .register c userId => registerStep st c userId
  | .disconnect c => disconnectStep st c
  | .broadcast _ _ _ => st

/-- Run a list of operations in arrival order (the event loop handles
them one at a time, each fully applied before the next). -/
def runOps (st : ServerState) (tr : List Op) : ServerState :=
  tr.foldl applyOp st

/-- Well-formedness of an execution from a given state: membership and
registration events come only from currently-connected sockets, and a
connect only introduces a fresh socket id (transport ids are unique). -/
def wfOk (st : ServerState) : List Op → Bool
  | [] => true
  | op :: tr =>
      (match op with
       | .connect c _ _ => !isConn st c
       | .joinRoom c _ => isConn st c
       | .leaveRoom c _ => isConn st c
       | .register c _ => isConn st c
       | .disconnect c => isConn st c
       | .broadcast _ _ _ => true)
      && wfOk (applyOp st op) tr

/-- One step of the specification-level membership history for a fixed
connection `c` and room name `room`: a join of that room (a `register`
joins `user_<userId>`) switches membership on, a leave of that room or a
disconnect of `c` switches it off, and every other operation leaves it
untouched. -/
def memberSpecStep (c : Sid) (room : String) (b : Bool) : Op → Bool
  | .joinRoom x r => if x = c ∧ r = room then true else b
  | .register x u => if x = c ∧ ("user_" ++ u) = room then true else b
  | .leaveRoom x r => if x = c ∧ r = room then false else b
  | .disconnect x => if x = c then false else b
  | _ => b

/-- Did `c` last execute a join of `room` with no intervening leave of
that room and no intervening disconnect of `c`? -/
def memberSpec (c : Sid) (room : String) (tr : List Op) : Bool :=
  tr.foldl (memberSpecStep c room) false

/-- Does the trace contain no operation that would (re)admit `c` into
`room` — no `joinRoom c room` and no `register c u` with
`user_<u> = room`? -/
def noJoinOf (c : Sid) (room : String) (tr : List Op) : Bool :=
  tr.all (fun op =>
    match op with
    | .joinRoom x r => if x = c ∧ r = room then false else true
    | .register x u => if x = c ∧ ("user_" ++ u) = room then false else true
    | _ => true)

/-! ## Concrete states, payloads and executions used in the witnesses -/

/-- A state in which connection `s1` is already a member of room `r`. -/
def stAlready : ServerState :=
  { connectedClients :=
      [("s1", { userId := none, rooms := ["r"], connectedAt := "t", ip := "ip" })],
    adapter := fun r => if r = "r" then ["s1"] else [] }

/-- A state in which `s1` is a member of two rooms, for the C7 witness. -/
def stTwoRooms : ServerState :=
  { connectedClients :=
      [("s1", { userId := none, rooms := ["a", "b"], connectedAt := "t", ip := "ip" }),
       ("s2", { userId := none, rooms := ["a"], connectedAt := "t", ip := "ip" })],
    adapter := fun r => if r = "a" then ["s1", "s2"] else if r = "b" then ["s1"] else [] }

/-- A one-client state for the C8 witness. -/
def stOneClient : ServerState :=
  { connectedClients :=
      [("s1", { userId := none, rooms := [], connectedAt := "t", ip := "ip" })],
    adapter := fun _ => [] }

/-- A concrete well-formed execution for the C1 witness: two clients
connect, both join `game_1`, one registers, one leaves and later
disconnects, and a broadcast happens in between. -/
def trSample : List Op :=
  [.connect "s1" "ip1" "t1", .connect "s2" "ip2" "t2",
   .joinRoom "s1" "game_1", .joinRoom "s2" "game_1",
   .register "s1" "7", .leaveRoom "s2" "game_1",
   .broadcast "game_1" "message" (jstr "hi"),
   .disconnect "s2"]

/-- A state where `s1` is in `lobby` only while `s2` is the sole member
of `game_42`. -/
def stGate : ServerState :=
  { connectedClients :=
      [("s1", { userId := none, rooms := ["lobby"], connectedAt := "t", ip := "ip" }),
       ("s2", { userId := none, rooms := ["game_42"], connectedAt := "t", ip := "ip" })],
    adapter := fun r => if r = "game_42" then ["s2"] else if r = "lobby" then ["s1"] else [] }

/-- The spoofed event of the C2 scenario: `s1` targets `game_42` without
being a member. -/
def payloadGate : JVal :=
  jobj [("gameId", jnum 42), ("comment", jobj [("id", jnum 1), ("text", jstr "spoof")])]

/-- A one-member room for the C9 counterexample. -/
def stMsg : ServerState :=
  { connectedClients := [], adapter := fun r => if r = "lobby" then ["s2"] else [] }

/-- Is the value a present-but-zero number, as in `{gameId: 0}`? -/
def isZeroNum : Option JVal → Bool
  | some (jnum n) => n == 0
  | _ => false

/-- Is the value a present-but-empty string, as in `{text: ""}`? -/
def isEmptyStr : Option JVal → Bool
  | some (jstr s) => s == ""
  | _ => false

/-- The spec's HTTP scenario state: two connections joined `game_123`. -/
def stTwoInGame : ServerState :=
  { connectedClients :=
      [("sA", { userId := none, rooms := ["game_123"], connectedAt := "t", ip := "ip" }),
       ("sB", { userId := none, rooms := ["game_123"], connectedAt := "t", ip := "ip" })],
    adapter := fun r => if r = "game_123" then ["sA", "sB"] else [] }

/-- The comment of the C3 scenario. -/
def cvSample : JVal := jobj [("id", jnum 456), ("text", jstr "hi")]

/-- The request body of the C3 scenario. -/
def bodySample : JVal := jobj [("gameId", jnum 123), ("comment", cvSample)]

/-- The C3 counterexample body: every claimed field present, but
`gameId` is `0`. -/
def bodyZeroGame : JVal :=
  jobj [("gameId", jnum 0), ("comment", jobj [("id", jnum 456), ("text", jstr "hi")])]

/-- The spec's HTTP validation scenario body: `{gameId: 123}` with
`commentId` missing. -/
def bodyDeleteMissing : JVal := jobj [("gameId", jnum 123)]

/-- The C4 counterexample body: `gameId` and `comment` present and
truthy, but the required nested `comment.id` missing. -/
def bodyNoCommentId : JVal :=
  jobj [("gameId", jnum 1), ("comment", jobj [("text", jstr "hi")])]

/-- The Bool test of the C10 scenario: some required numeric field is
present but `0`, or `comment.text` is present but the empty string. -/
def zeroFieldPresent : GcEndpoint → JVal → Bool
  | .newC, body =>
      isZeroNum (jsGet body "gameId")
        || isZeroNum (jsGetOpt (jsGet body "comment") "id")
        || isEmptyStr (jsGetOpt (jsGet body "comment") "text")
  | .editC, body =>
      isZeroNum (jsGet body "gameId")
        || isZeroNum (jsGetOpt (jsGet body "comment") "id")
  | .deleteC, body =>
      isZeroNum (jsGet body "gameId") || isZeroNum (jsGet body "commentId")

/-- A body with a present-but-zero `gameId` and an otherwise valid
comment, for the C10 witness. -/
def bodyZeroField : JVal :=
  jobj [("gameId", jnum 0), ("comment", jobj [("id", jnum 1), ("text", jstr "x")])]

/-! ## Basic facts about the set and map primitives -/

theorem mem_setAdd {α : Type} [DecidableEq α] {x y : α} {l : List α} :
    x ∈ setAdd y l ↔ (x = y ∨ x ∈ l) := by
  unfold setAdd
  by_cases h : y ∈ l
  · simp only [if_pos h]
    exact ⟨.inr, fun hh => hh.elim (fun hx => hx ▸ h) id⟩
  · simp [if_neg h, List.mem_append, or_comm]

theorem setAdd_idem {α : Type} [DecidableEq α] (x : α) (l : List α) :
    setAdd x (setAdd x l) = setAdd x l := by
  by_cases h : x ∈ l
  · simp [setAdd, h]
  · simp [setAdd, h]

theorem mem_setDel {α : Type} [DecidableEq α] {a x : α} {l : List α} :
    a ∈ setDel x l ↔ (a ∈ l ∧ a ≠ x) := by
  simp [setDel, List.mem_filter]

theorem not_mem_setDel {α : Type} [DecidableEq α] (x : α) (l : List α) :
    x ∉ setDel x l := by
  intro h
  exact (mem_setDel.mp h).2 rfl

theorem setDel_of_not_mem {α : Type} [DecidableEq α] {x : α} {l : List α}
    (h : x ∉ l) : setDel x l = l := by
  rw [setDel, List.filter_eq_self]
  intro a ha
  simp only [ne_eq, decide_eq_true_eq]
  intro hax
  exact h (hax ▸ ha)

theorem setDel_setAdd {α : Type} [DecidableEq α] {x : α} {l : List α}
    (h : x ∉ l) : setDel x (setAdd x l) = l := by
  rw [setAdd, if_neg h, setDel, List.filter_append]
  have h1 : List.filter (fun y => decide (y ≠ x)) l = l := setDel_of_not_mem h
  have h2 : List.filter (fun y => decide (y ≠ x)) [x] = [] := by simp
  rw [h1, h2, List.append_nil]

theorem mapGet_mapSet (l : List (Sid × ClientInfo)) (c : Sid) (v : ClientInfo)
    (x : Sid) : mapGet (mapSet l c v) x = if x = c then some v else mapGet l x := by
  induction l with
  | nil =>
      by_cases hx : x = c
      · subst hx; simp [mapSet, mapGet]
      · simp [mapSet, mapGet, hx, Ne.symm hx]
  | cons hd tl ih =>
      obtain ⟨k, w⟩ := hd
      simp only [mapSet]
      by_cases hk : k = c
      · subst hk
        simp only [if_pos rfl, mapGet]
        by_cases hx : k = x
        · subst hx; simp
        · simp [hx, Ne.symm hx]
      · simp only [if_neg hk, mapGet, ih]
        by_cases hx : k = x
        · subst hx; simp [hk]
        · simp [hx]

theorem mapGet_mapUpdate (l : List (Sid × ClientInfo)) (c : Sid)
    (f : ClientInfo → ClientInfo) (x : Sid) :
    mapGet (mapUpdate l c f) x =
      if x = c then (mapGet l c).map f else mapGet l x := by
  induction l with
  | nil =>
      by_cases hx : x = c
      · subst hx; simp [mapUpdate, mapGet]
      · simp [mapUpdate, mapGet, hx]
  | cons hd tl ih =>
      obtain ⟨k, w⟩ := hd
      simp only [mapUpdate]
      by_cases hk : k = c
      · subst hk
        simp only [if_pos rfl, mapGet]
        by_cases hx : k = x
        · subst hx; simp
        · simp [hx, Ne.symm hx]
      · simp only [if_neg hk, mapGet, ih]
        by_cases hx : k = x
        · subst hx; simp [hk]
        · simp [hx]

theorem mapGet_mapDelete (l : List (Sid × ClientInfo)) (c : Sid) (x : Sid) :
    mapGet (mapDelete l c) x = if x = c then none else mapGet l x := by
  induction l with
  | nil =>
      by_cases hx : x = c
      · subst hx; simp [mapDelete, mapGet]
      · simp [mapDelete, mapGet, hx]
  | cons hd tl ih =>
      obtain ⟨k, w⟩ := hd
      simp only [mapDelete]
      by_cases hk : k = c
      · subst hk
        simp only [if_pos rfl]
        by_cases hx : k = x
        · subst hx; simp [ih]
        · simp [ih, Ne.symm hx, mapGet, hx]
      · simp only [if_neg hk, mapGet, ih]
        by_cases hx : k = x
        · subst hx; simp [hk]
        · simp [hx]

theorem mapUpdate_mapUpdate (l : List (Sid × ClientInfo)) (c : Sid)
    (f g : ClientInfo → ClientInfo) :
    mapUpdate (mapUpdate l c f) c g = mapUpdate l c (fun v => g (f v)) := by
  induction l with
  | nil => simp [mapUpdate]
  | cons hd tl ih =>
      obtain ⟨k, w⟩ := hd
      by_cases hk : k = c <;> simp [mapUpdate, hk, ih]

theorem mapUpdate_eq_self (l : List (Sid × ClientInfo)) (c : Sid)
    (f : ClientInfo → ClientInfo)
    (h : ∀ v, mapGet l c = some v → f v = v) : mapUpdate l c f = l := by
  induction l with
  | nil => simp [mapUpdate]
  | cons hd tl ih =>
      obtain ⟨k, w⟩ := hd
      by_cases hk : k = c
      · subst hk
        have hw : f w = w := h w (by simp [mapGet])
        simp [mapUpdate, hw]
      · have ht : mapUpdate tl c f = tl := by
          refine ih (fun v hv => h v ?_)
          simpa [mapGet, hk] using hv
        simp [mapUpdate, hk, ht]

theorem mapDelete_of_not_found (l : List (Sid × ClientInfo)) (c : Sid)
    (h : mapGet l c = none) : mapDelete l c = l := by
  induction l with
  | nil => simp [mapDelete]
  | cons hd tl ih =>
      obtain ⟨k, w⟩ := hd
      by_cases hk : k = c
      · subst hk
        simp [mapGet] at h
      · have ht : mapGet tl c = none := by simpa [mapGet, hk] using h
        simp [mapDelete, hk, ih ht]

/-! ## Adapter membership along an execution -/

theorem isConn_connectStep (st : ServerState) (x : Sid) (ip now : String) (c : Sid) :
    isConn (connectStep st x ip now) c = if c = x then true else isConn st c := by
  simp only [isConn, lookupClient, connectStep, mapGet_mapSet]
  by_cases h : c = x <;> simp [h]

theorem isConn_joinStep (st : ServerState) (x : Sid) (room : String) (c : Sid) :
    isConn (joinStep st x room) c = isConn st c := by
  simp only [isConn, lookupClient, joinStep, mapGet_mapUpdate]
  by_cases h : c = x <;> simp [h]

theorem isConn_leaveStep (st : ServerState) (x : Sid) (room : String) (c : Sid) :
    isConn (leaveStep st x room) c = isConn st c := by
  simp only [isConn, lookupClient, leaveStep, mapGet_mapUpdate]
  by_cases h : c = x <;> simp [h]

theorem isConn_registerStep (st : ServerState) (x : Sid) (u : String) (c : Sid) :
    isConn (registerStep st x u) c = isConn st c := by
  simp only [isConn, lookupClient, registerStep, mapGet_mapUpdate]
  by_cases h : c = x <;> simp [h]

theorem isConn_disconnectStep (st : ServerState) (x : Sid) (c : Sid) :
    isConn (disconnectStep st x) c = if c = x then false else isConn st c := by
  simp only [isConn, lookupClient, disconnectStep, mapGet_mapDelete]
  by_cases h : c = x <;> simp [h]

/-- Adapter membership of one fixed connection in one fixed room tracks
the membership history fold, from any starting state whose membership
agrees with the fold's seed. -/
theorem runOps_adapter_mem (c : Sid) (room : String) :
    ∀ (tr : List Op) (st : ServerState) (b : Bool),
      (c ∈ st.adapter room ↔ b = true) →
      (c ∈ (runOps st tr).adapter room ↔
        tr.foldl (memberSpecStep c room) b = true) := by
  intro tr
  induction tr with
  | nil => intro st b h; simpa [runOps] using h
  | cons op tr ih =>
      intro st b h
      have hstep : c ∈ (applyOp st op).adapter room ↔
          memberSpecStep c room b op = true := by
        cases op with
        | connect x ip now =>
            simpa [applyOp, connectStep, memberSpecStep] using h
        | joinRoom x r =>
            simp only [applyOp, joinStep, memberSpecStep]
            by_cases hr : room = r
            · rw [if_pos hr, mem_setAdd]
              by_cases hx : x = c
              · rw [if_pos ⟨hx, hr.symm⟩]
                simp [hx]
              · rw [if_neg (fun hh => hx hh.1), ← h]
                exact or_iff_right (fun hh => hx hh.symm)
            · rw [if_neg hr, if_neg (fun hh : x = c ∧ r = room => hr hh.2.symm)]
              exact h
        | leaveRoom x r =>
            simp only [applyOp, leaveStep, memberSpecStep]
            by_cases hr : room = r
            · rw [if_pos hr, mem_setDel]
              by_cases hx : x = c
              · rw [if_pos ⟨hx, hr.symm⟩]
                simp [hx]
              · rw [if_neg (fun hh => hx hh.1), ← h]
                exact and_iff_left (fun hh => hx hh.symm)
            · rw [if_neg hr, if_neg (fun hh : x = c ∧ r = room => hr hh.2.symm)]
              exact h
        | register x u =>
            simp only [applyOp, registerStep, memberSpecStep]
            by_cases hr : room = ("user_" ++ u)
            · rw [if_pos hr, mem_setAdd]
              by_cases hx : x = c
              · rw [if_pos ⟨hx, hr.symm⟩]
                simp [hx]
              · rw [if_neg (fun hh => hx hh.1), ← h]
                exact or_iff_right (fun hh => hx hh.symm)
            · rw [if_neg hr,
                if_neg (fun hh : x = c ∧ ("user_" ++ u) = room => hr hh.2.symm)]
              exact h
        | disconnect x =>
            simp only [applyOp, disconnectStep, memberSpecStep]
            rw [mem_setDel]
            by_cases hx : x = c
            · rw [if_pos hx]
              simp [hx]
            · rw [if_neg hx, ← h]
              exact and_iff_left (fun hh => hx hh.symm)
        | broadcast r e p =>
            simpa [applyOp, memberSpecStep] using h
      have := ih (applyOp st op) (memberSpecStep c room b op) hstep
      simpa [runOps, List.foldl_cons] using this

/-- In a well-formed execution the membership fold only reports live
connections: a connection the fold marks as a member is connected. -/
theorem runOps_memberSpec_isConn (c : Sid) (room : String) :
    ∀ (tr : List Op) (st : ServerState) (b : Bool),
      (b = true → isConn st c = true) → wfOk st tr = true →
      tr.foldl (memberSpecStep c room) b = true →
      isConn (runOps st tr) c = true := by
  intro tr
  induction tr with
  | nil => intro st b hb _ hf; exact hb (by simpa [runOps] using hf)
  | cons op tr ih =>
      intro st b hb hwf hf
      have hwf1 : wfOk (applyOp st op) tr = true := by
        simp only [wfOk, Bool.and_eq_true] at hwf
        exact hwf.2
      have hguard := by
        simp only [wfOk, Bool.and_eq_true] at hwf
        exact hwf.1
      have hb1 : memberSpecStep c room b op = true → isConn (applyOp st op) c = true := by
        cases op with
        | connect x ip now =>
            intro hm
            rw [applyOp, isConn_connectStep]
            by_cases hc : c = x
            · simp [hc]
            · simpa [hc] using hb (by simpa [memberSpecStep] using hm)
        | joinRoom x r =>
            intro hm
            rw [applyOp, isConn_joinStep]
            simp only [memberSpecStep] at hm
            by_cases hcond : x = c ∧ r = room
            · rw [← hcond.1]
              simpa using hguard
            · rw [if_neg hcond] at hm
              exact hb hm
        | leaveRoom x r =>
            intro hm
            rw [applyOp, isConn_leaveStep]
            simp only [memberSpecStep] at hm
            by_cases hcond : x = c ∧ r = room
            · rw [if_pos hcond] at hm
              exact absurd hm (by simp)
            · rw [if_neg hcond] at hm
              exact hb hm
        | register x u =>
            intro hm
            rw [applyOp, isConn_registerStep]
            simp only [memberSpecStep] at hm
            by_cases hcond : x = c ∧ ("user_" ++ u) = room
            · rw [← hcond.1]
              simpa using hguard
            · rw [if_neg hcond] at hm
              exact hb hm
        | disconnect x =>
            intro hm
            rw [applyOp, isConn_disconnectStep]
            simp only [memberSpecStep] at hm
            by_cases hx : x = c
            · rw [if_pos hx] at hm
              exact absurd hm (by simp)
            · rw [if_neg hx] at hm
              rw [if_neg (fun hh => hx hh.symm)]
              exact hb hm
        | broadcast r e p =>
            intro hm
            simpa [applyOp, memberSpecStep] using hb (by simpa [memberSpecStep] using hm)
      have hf1 : tr.foldl (memberSpecStep c room) (memberSpecStep c room b op) = true := by
        simpa [List.foldl_cons] using hf
      simpa [runOps, List.foldl_cons] using ih (applyOp st op) _ hb1 hwf1 hf1

/-- A trace with no join of `(c, room)` leaves the membership fold off. -/
theorem memberSpec_of_noJoin (c : Sid) (room : String) :
    ∀ (tr : List Op), noJoinOf c room tr = true →
      tr.foldl (memberSpecStep c room) false = false := by
  intro tr
  induction tr with
  | nil => intro _; simp
  | cons op tr ih =>
      intro h
      simp only [noJoinOf, List.all_cons, Bool.and_eq_true] at h
      have hhd := h.1
      have htl : noJoinOf c room tr = true := by
        simpa [noJoinOf] using h.2
      have hstep : memberSpecStep c room false op = false := by
        cases op with
        | connect x ip now => simp [memberSpecStep]
        | joinRoom x r =>
            simp only [memberSpecStep]
            by_cases hcond : x = c ∧ r = room
            · simp [hcond] at hhd
            · simp [hcond]
        | leaveRoom x r =>
            simp only [memberSpecStep]
            by_cases hcond : x = c ∧ r = room <;> simp [hcond]
        | register x u =>
            simp only [memberSpecStep]
            by_cases hcond : x = c ∧ ("user_" ++ u) = room
            · simp [hcond] at hhd
            · simp [hcond]
        | disconnect x =>
            simp only [memberSpecStep]
            by_cases hx : x = c <;> simp [hx]
        | broadcast r e p => simp [memberSpecStep]
      rw [List.foldl_cons, hstep]
      exact ih htl

/-! ## Claim theorems: membership algebra (C5, C6, C7, C8) -/

/-- C5: executing `join(c, r)` twice in succession yields the same
membership state (channel member sets, per-connection channel set, and
hence every `channelSize`) as executing it once; moreover re-joining an
already-joined channel is a no-op on the state (and, the step being a
total function, not an error). -/
theorem joinRoom_idempotent (st : ServerState) (c : Sid) (room : String) :
    joinStep (joinStep st c room) c room = joinStep st c room ∧
    (room ∈ clientRoomsOf st c → c ∈ st.adapter room → joinStep st c room = st) := by
  constructor
  · unfold joinStep
    congr 1
    · rw [mapUpdate_mapUpdate]
      congr 1
      funext v
      simp [setAdd_idem]
    · funext r
      by_cases hr : r = room
      · simp [hr, setAdd_idem]
      · simp [hr]
  · intro hrooms hmem
    obtain ⟨cc, A⟩ := st
    unfold joinStep
    congr 1
    · apply mapUpdate_eq_self
      intro v hv
      have hveq : v.rooms = clientRoomsOf ⟨cc, A⟩ c := by
        simp [clientRoomsOf, lookupClient, hv]
      have hin : room ∈ v.rooms := by rw [hveq]; exact hrooms
      simp [setAdd, hin]
    · funext r
      by_cases hr : r = room
      · subst hr
        simp [setAdd, hmem]
      · simp [hr]

/-- C6 (amended): provided `c` is not already a member of `r`, a
`leave(c, r)` immediately after `join(c, r)` returns the membership state
to the pre-join state, the join having grown `channelSize(r)` by exactly
one (so the leave shrinks it by exactly one, and a size is a natural
number, never negative); and a `leave(c, r)` when `c` is not a member of
`r` is a no-op on the state, not an error. -/
theorem leave_after_join (st : ServerState) (c : Sid) (room : String)
    (hmem : c ∉ st.adapter room) (hrooms : room ∉ clientRoomsOf st c) :
    leaveStep (joinStep st c room) c room = st ∧
    getRoomSize (joinStep st c room) room = getRoomSize st room + 1 ∧
    leaveStep st c room = st := by
  refine ⟨?_, ?_, ?_⟩
  · obtain ⟨cc, A⟩ := st
    unfold joinStep leaveStep
    congr 1
    · rw [mapUpdate_mapUpdate]
      apply mapUpdate_eq_self
      intro v hv
      have hveq : v.rooms = clientRoomsOf ⟨cc, A⟩ c := by
        simp [clientRoomsOf, lookupClient, hv]
      have hnin : room ∉ v.rooms := by rw [hveq]; exact hrooms
      simp [setDel_setAdd hnin]
    · funext r
      by_cases hr : r = room
      · subst hr
        simp [setDel_setAdd hmem]
      · simp [hr]
  · simp only [getRoomSize, joinStep, if_pos rfl, setAdd, if_neg hmem]
    simp
  · obtain ⟨cc, A⟩ := st
    unfold leaveStep
    congr 1
    · apply mapUpdate_eq_self
      intro v hv
      have hveq : v.rooms = clientRoomsOf ⟨cc, A⟩ c := by
        simp [clientRoomsOf, lookupClient, hv]
      have hnin : room ∉ v.rooms := by rw [hveq]; exact hrooms
      simp [setDel_of_not_mem hnin]
    · funext r
      by_cases hr : r = room
      · subst hr
        simp [setDel_of_not_mem hmem]
      · simp [hr]

/-- C6, counterexample to the claim as stated: when the connection is
already a member of the room, `join` is absorbed and the following
`leave` does not return the state to the pre-join state (the membership
is gone instead). -/
theorem leave_after_join_counterexample :
    "s1" ∈ stAlready.adapter "r" ∧
    leaveStep (joinStep stAlready "s1" "r") "s1" "r" ≠ stAlready := by
  constructor
  · decide
  · intro h
    have h2 := congrArg (fun s => getRoomSize s "r") h
    exact absurd h2 (by decide)

/-- C6, witness for the amended statement at a concrete state: a fresh
connection joining and leaving room `game_9`. -/
theorem leave_after_join_witness :
    leaveStep (joinStep initState "s1" "game_9") "s1" "game_9" = initState ∧
    getRoomSize (joinStep initState "s1" "game_9") "game_9" =
      getRoomSize initState "game_9" + 1 ∧
    leaveStep initState "s1" "game_9" = initState :=
  leave_after_join initState "s1" "game_9" (by decide) (by decide)

/-- C7: disconnecting a member of channels `r1` and `r2` removes it from
both member sets and deletes its registry record; afterwards, along any
continuation in which `c` does not join the channel again (no
`joinRoom`/`register` readmitting it), no broadcast to `r1` or `r2`
delivers to `c`.  Disconnect of an unknown connection id is not an
error: the handler is total and leaves the registry untouched. -/
theorem disconnect_cleanup (st : ServerState) (c : Sid) (r1 r2 : String)
    (h1 : c ∈ st.adapter r1) (h2 : c ∈ st.adapter r2) :
    c ∉ (disconnectStep st c).adapter r1 ∧
    c ∉ (disconnectStep st c).adapter r2 ∧
    lookupClient (disconnectStep st c) c = none ∧
    (∀ (tr : List Op) (ev : String) (pl : JVal) (d : Delivery),
        noJoinOf c r1 tr = true →
        d ∈ emitToRoom (runOps (disconnectStep st c) tr) r1 ev pl → d.dest ≠ c) ∧
    (∀ (tr : List Op) (ev : String) (pl : JVal) (d : Delivery),
        noJoinOf c r2 tr = true →
        d ∈ emitToRoom (runOps (disconnectStep st c) tr) r2 ev pl → d.dest ≠ c) ∧
    (lookupClient st c = none →
      (disconnectStep st c).connectedClients = st.connectedClients) := by
  have hnot : ∀ r, c ∉ (disconnectStep st c).adapter r := fun r =>
    not_mem_setDel c (st.adapter r)
  have hdeliver : ∀ (r : String) (tr : List Op) (ev : String) (pl : JVal) (d : Delivery),
      noJoinOf c r tr = true →
      d ∈ emitToRoom (runOps (disconnectStep st c) tr) r ev pl → d.dest ≠ c := by
    intro r tr ev pl d hnj hd
    rcases List.mem_map.mp hd with ⟨x, hx, hxd⟩
    subst hxd
    intro hdc
    have hc : c ∈ (runOps (disconnectStep st c) tr).adapter r := hdc ▸ hx
    have hiff : c ∈ (disconnectStep st c).adapter r ↔ false = true :=
      ⟨fun hm => absurd hm (hnot r), fun hf => absurd hf Bool.false_ne_true⟩
    have hf := (runOps_adapter_mem c r tr (disconnectStep st c) false hiff).mp hc
    rw [memberSpec_of_noJoin c r tr hnj] at hf
    exact Bool.false_ne_true hf
  refine ⟨hnot r1, hnot r2, ?_, hdeliver r1, hdeliver r2, ?_⟩
  · simp [lookupClient, disconnectStep, mapGet_mapDelete]
  · intro hnone
    exact mapDelete_of_not_found st.connectedClients c hnone

/-- C7, witness: the cleanup conclusions hold for `s1` joined to rooms
`a` and `b` of a concrete two-client state. -/
theorem disconnect_cleanup_witness :
    "s1" ∉ (disconnectStep stTwoRooms "s1").adapter "a" ∧
    "s1" ∉ (disconnectStep stTwoRooms "s1").adapter "b" ∧
    lookupClient (disconnectStep stTwoRooms "s1") "s1" = none ∧
    (∀ (tr : List Op) (ev : String) (pl : JVal) (d : Delivery),
        noJoinOf "s1" "a" tr = true →
        d ∈ emitToRoom (runOps (disconnectStep stTwoRooms "s1") tr) "a" ev pl →
        d.dest ≠ "s1") ∧
    (∀ (tr : List Op) (ev : String) (pl : JVal) (d : Delivery),
        noJoinOf "s1" "b" tr = true →
        d ∈ emitToRoom (runOps (disconnectStep stTwoRooms "s1") tr) "b" ev pl →
        d.dest ≠ "s1") ∧
    (lookupClient stTwoRooms "s1" = none →
      (disconnectStep stTwoRooms "s1").connectedClients = stTwoRooms.connectedClients) :=
  disconnect_cleanup stTwoRooms "s1" "a" "b" (by decide) (by decide)

/-- C8: `register(c, userId)` joins `c` to `user_<userId>` and records
the association; a second `register` with a different user id overwrites
the recorded association and joins `user_<newId>`, while the membership
in the old `user_<oldId>` channel is left in place (not removed), both in
the adapter's member set and in the per-connection channel set. -/
theorem register_overwrite (st : ServerState) (c : Sid) (u1 u2 : String)
    (ci : ClientInfo) (hc : lookupClient st c = some ci) :
    clientUserIdOf (registerStep st c u1) c = some u1 ∧
    c ∈ (registerStep st c u1).adapter ("user_" ++ u1) ∧
    clientUserIdOf (registerStep (registerStep st c u1) c u2) c = some u2 ∧
    c ∈ (registerStep (registerStep st c u1) c u2).adapter ("user_" ++ u2) ∧
    c ∈ (registerStep (registerStep st c u1) c u2).adapter ("user_" ++ u1) ∧
    ("user_" ++ u1) ∈ clientRoomsOf (registerStep (registerStep st c u1) c u2) c := by
  have hget1 : lookupClient (registerStep st c u1) c =
      some { ci with userId := some u1, rooms := setAdd ("user_" ++ u1) ci.rooms } := by
    simp only [lookupClient, registerStep, mapGet_mapUpdate, if_pos rfl]
    rw [show mapGet st.connectedClients c = some ci from hc]
    rfl
  have hmem1 : c ∈ (registerStep st c u1).adapter ("user_" ++ u1) := by
    simp only [registerStep, if_pos rfl]
    exact mem_setAdd.mpr (.inl rfl)
  refine ⟨?_, hmem1, ?_, ?_, ?_, ?_⟩
  · simp [clientUserIdOf, hget1]
  · simp only [clientUserIdOf, lookupClient, registerStep, mapGet_mapUpdate, if_pos rfl]
    rw [show mapGet st.connectedClients c = some ci from hc]
    rfl
  · simp only [registerStep, if_pos rfl]
    exact mem_setAdd.mpr (.inl rfl)
  · show c ∈ (if ("user_" ++ u1) = ("user_" ++ u2) then _ else _)
    by_cases hu : ("user_" ++ u1) = ("user_" ++ u2)
    · rw [if_pos hu]
      exact mem_setAdd.mpr (.inr hmem1)
    · rw [if_neg hu]
      exact hmem1
  · simp only [clientRoomsOf, lookupClient, registerStep, mapGet_mapUpdate, if_pos rfl]
    rw [show mapGet st.connectedClients c = some ci from hc]
    exact mem_setAdd.mpr (.inr (mem_setAdd.mpr (.inl rfl)))

/-- C8, witness: registering `s1` as `alice`, then as `bob`, on a
concrete one-client state. -/
theorem register_overwrite_witness :
    clientUserIdOf (registerStep stOneClient "s1" "alice") "s1" = some "alice" ∧
    "s1" ∈ (registerStep stOneClient "s1" "alice").adapter ("user_" ++ "alice") ∧
    clientUserIdOf (registerStep (registerStep stOneClient "s1" "alice") "s1" "bob") "s1" =
      some "bob" ∧
    "s1" ∈ (registerStep (registerStep stOneClient "s1" "alice") "s1" "bob").adapter
      ("user_" ++ "bob") ∧
    "s1" ∈ (registerStep (registerStep stOneClient "s1" "alice") "s1" "bob").adapter
      ("user_" ++ "alice") ∧
    ("user_" ++ "alice") ∈
      clientRoomsOf (registerStep (registerStep stOneClient "s1" "alice") "s1" "bob") "s1" :=
  register_overwrite stOneClient "s1" "alice" "bob"
    { userId := none, rooms := [], connectedAt := "t", ip := "ip" } rfl

/-! ## Claim theorems: the reachable-state invariant (C1) -/

/-- C1: in every state reached from the initial state by a well-formed
execution, the member set of every channel `room` is exactly the set of
live connections whose last join of `room` (a `register` performs the
join of `user_<userId>`) has no intervening leave of `room` and no
intervening disconnect; the invariant is preserved by every operation,
join, leave, register, disconnect and broadcast included. -/
theorem channel_member_set_invariant (tr : List Op)
    (h : wfOk initState tr = true) (c : Sid) (room : String) :
    c ∈ (runOps initState tr).adapter room ↔
      (isConn (runOps initState tr) c = true ∧ memberSpec c room tr = true) := by
  have hA := runOps_adapter_mem c room tr initState false (by simp [initState])
  constructor
  · intro hm
    have hspec : memberSpec c room tr = true := hA.mp hm
    exact ⟨runOps_memberSpec_isConn c room tr initState false (by simp) h hspec, hspec⟩
  · intro hh
    exact hA.mpr hh.2

/-- C1, witness: the invariant instantiated on the sample execution for
connection `s1` and channel `game_1`. -/
theorem channel_member_set_invariant_witness :
    wfOk initState trSample = true ∧
      ("s1" ∈ (runOps initState trSample).adapter "game_1" ↔
        (isConn (runOps initState trSample) "s1" = true ∧
          memberSpec "s1" "game_1" trSample = true)) :=
  ⟨by decide, channel_member_set_invariant trSample (by decide) "s1" "game_1"⟩

/-! ## Claim theorems: gated broadcast (C2) and message relay (C9) -/

/-- C2: a `broadcast_comment_new({gameId, comment})` event from a sender
that is not a member of `game_<gameId>` produces zero deliveries — the
relay state is unchanged and no event (in particular no error event) is
emitted to anyone, the sender included; the call is dropped (the code
merely logs it). -/
theorem gated_broadcast_dropped (st : ServerState) (c : Sid) (payload g : JVal)
    (hg : jsGet payload "gameId" = some g)
    (hroom : getGameRoomName g ∉ clientRoomsOf st c)
    (hmem : c ∉ st.adapter (getGameRoomName g)) :
    handleBroadcastCommentNew st c payload = (st, []) := by
  simp only [handleBroadcastCommentNew, hg]
  by_cases hguard : (!truthyOpt (some g) || !truthyOpt (jsGet payload "comment")) = true
  · rw [if_pos hguard]
  · rw [if_neg hguard]
    cases hl : lookupClient st c with
    | none => rfl
    | some ci =>
        have hcr : clientRoomsOf st c = ci.rooms := by
          simp [clientRoomsOf, hl]
        dsimp only
        rw [if_neg (show getGameRoomName ((some g).getD jnull) ∉ ci.rooms by
          rw [← hcr]
          exact hroom)]

/-- C2, witness: the spoofed broadcast from the non-member `s1` yields
zero deliveries and an unchanged state. -/
theorem gated_broadcast_dropped_witness :
    handleBroadcastCommentNew stGate "s1" payloadGate = (stGate, []) :=
  gated_broadcast_dropped stGate "s1" payloadGate (jnum 42) rfl (by decide) (by decide)

/-- C9 (amended): on an inbound `message({room, message})` event, the
full server rebroadcasts to every member of `room` an event tagged
`message` whose payload is `{room, message, from: senderId}`, while the
minimal server rebroadcasts the raw `message` value with no wrapping. -/
theorem message_rebroadcast (st : ServerState) (c : Sid) (room : String)
    (message : JVal) :
    handleMessage st c room message =
      (st.adapter room).map (fun d =>
        { dest := d, event := "message",
          payload := jobj [("room", jstr room), ("message", message), ("from", jstr c)] }) ∧
    handleMessageMin st c room message =
      (st.adapter room).map (fun d =>
        { dest := d, event := "message", payload := message }) :=
  ⟨rfl, rfl⟩

/-- C9, counterexample to the claim as stated: the minimal server's
`message` handler delivers the raw message, not the claimed
`{room, message, from}` object. -/
theorem message_min_counterexample :
    handleMessageMin stMsg "s1" "lobby" (jstr "hi") =
      [{ dest := "s2", event := "message", payload := jstr "hi" }] ∧
    jstr "hi" ≠
      jobj [("room", jstr "lobby"), ("message", jstr "hi"), ("from", jstr "s1")] :=
  ⟨rfl, fun h => JVal.noConfusion h⟩

/-! ## Claim theorems: HTTP broadcast endpoints (C3, C4, C10) -/

/-- A field that is a zero number is present yet falsy. -/
theorem truthyOpt_of_isZeroNum {o : Option JVal} (h : isZeroNum o = true) :
    truthyOpt o = false := by
  cases o with
  | none => simp [isZeroNum] at h
  | some v =>
      cases v with
      | jnum n =>
          have hn : n = 0 := by simpa [isZeroNum] using h
          simp [truthyOpt, truthy, hn]
      | jnull => simp [isZeroNum] at h
      | jbool b => simp [isZeroNum] at h
      | jstr s => simp [isZeroNum] at h
      | jobj fs => simp [isZeroNum] at h
      | jarr xs => simp [isZeroNum] at h

/-- A field that is an empty string is present yet falsy. -/
theorem truthyOpt_of_isEmptyStr {o : Option JVal} (h : isEmptyStr o = true) :
    truthyOpt o = false := by
  cases o with
  | none => simp [isEmptyStr] at h
  | some v =>
      cases v with
      | jstr s =>
          have hs : s = "" := by simpa [isEmptyStr] using h
          simp [truthyOpt, truthy, hs]
      | jnull => simp [isEmptyStr] at h
      | jbool b => simp [isEmptyStr] at h
      | jnum n => simp [isEmptyStr] at h
      | jobj fs => simp [isEmptyStr] at h
      | jarr xs => simp [isEmptyStr] at h

/-- C3 (amended): a `POST /api/broadcast/game-comment/new` whose body
carries a truthy `gameId` and a comment with truthy `id` and `text`
answers 200 with the summary object — `recipients` being the size of
`game_<gameId>` at broadcast initiation — and every member of
`game_<gameId>` at that time receives a `game_comment_new` event with
the comment object unchanged. -/
theorem post_comment_new_success (st : ServerState) (body : JVal) (now : String)
    (g cv : JVal)
    (hg : jsGet body "gameId" = some g) (hgt : truthy g = true)
    (hc : jsGet body "comment" = some cv) (hct : truthy cv = true)
    (hid : truthyOpt (jsGet cv "id") = true)
    (htext : truthyOpt (jsGet cv "text") = true) :
    postGameCommentNew st body now =
      (st,
       ({ status := 200,
          body := jobj [("success", jbool true), ("gameId", g),
                        ("room", jstr (getGameRoomName g)),
                        ("recipients", jnum ((getRoomSize st (getGameRoomName g) : Int))),
                        ("event", jstr "game_comment_new"), ("timestamp", jstr now)] } :
         HttpResponse),
       (st.adapter (getGameRoomName g)).map (fun d =>
         ({ dest := d, event := "game_comment_new", payload := cv } : Delivery))) := by
  simp only [postGameCommentNew, hg, hc]
  have h1 : ¬((!truthyOpt (some g) || !truthyOpt (some cv)) = true) := by
    simp [truthyOpt, hgt, hct]
  rw [if_neg h1]
  have h2 : ¬((!truthyOpt (jsGetOpt (some cv) "id")
      || !truthyOpt (jsGetOpt (some cv) "text")) = true) := by
    simp [jsGetOpt, hid, htext]
  rw [if_neg h2]
  rfl

/-- C3, witness: the spec's scenario — two members of `game_123`, body
`{gameId: 123, comment: {id: 456, text: "hi"}}` — answers 200 with
`recipients = 2` and delivers the comment to both members unchanged. -/
theorem post_comment_new_success_witness :
    postGameCommentNew stTwoInGame bodySample "T" =
      (stTwoInGame,
       ({ status := 200,
          body := jobj [("success", jbool true), ("gameId", jnum 123),
                        ("room", jstr (getGameRoomName (jnum 123))),
                        ("recipients",
                          jnum ((getRoomSize stTwoInGame (getGameRoomName (jnum 123)) : Int))),
                        ("event", jstr "game_comment_new"), ("timestamp", jstr "T")] } :
         HttpResponse),
       (stTwoInGame.adapter (getGameRoomName (jnum 123))).map (fun d =>
         ({ dest := d, event := "game_comment_new", payload := cvSample } : Delivery))) ∧
    getGameRoomName (jnum 123) = "game_123" ∧
    getRoomSize stTwoInGame (getGameRoomName (jnum 123)) = 2 ∧
    (stTwoInGame.adapter (getGameRoomName (jnum 123))).map (fun d =>
        ({ dest := d, event := "game_comment_new", payload := cvSample } : Delivery)) =
      [{ dest := "sA", event := "game_comment_new", payload := cvSample },
       { dest := "sB", event := "game_comment_new", payload := cvSample }] :=
  ⟨post_comment_new_success stTwoInGame bodySample "T" (jnum 123) cvSample
      rfl rfl rfl rfl rfl rfl,
   rfl, rfl, rfl⟩

/-- C3, counterexample to the claim as stated: a body containing
`gameId` and a comment with both `id` and `text` is nevertheless
rejected with 400 and zero deliveries when `gameId` is `0`, because the
guard tests truthiness, not presence. -/
theorem post_comment_new_counterexample :
    jsGet bodyZeroGame "gameId" = some (jnum 0) ∧
    jsGetOpt (jsGet bodyZeroGame "comment") "id" = some (jnum 456) ∧
    jsGetOpt (jsGet bodyZeroGame "comment") "text" = some (jstr "hi") ∧
    (postGameCommentNew stTwoInGame bodyZeroGame "T").2.1.status = 400 ∧
    (postGameCommentNew stTwoInGame bodyZeroGame "T").2.2 = [] :=
  ⟨rfl, rfl, rfl, rfl, rfl⟩

/-- C4 (amended): a game-comment broadcast request failing the
endpoint's required-field validation is answered 400 with no emit and no
relay-state mutation; the enumerated `required` list is carried exactly
when a top-level field (`gameId`, `comment`, `commentId`) is missing —
a missing nested `comment.id`/`comment.text` yields a 400 whose body has
an error message but no `required` list. -/
theorem post_validation_failure (e : GcEndpoint) (st : ServerState) (body : JVal)
    (now : String) (h : gcMissing e body = true) :
    (gcPost e st body now).1 = st ∧
    (gcPost e st body now).2.1.status = 400 ∧
    (gcPost e st body now).2.2 = [] ∧
    (gcTopMissing e body = true →
      jsGet (gcPost e st body now).2.1.body "required" = some (gcRequired e)) := by
  cases e with
  | newC =>
      by_cases htop : (!truthyOpt (jsGet body "gameId")
          || !truthyOpt (jsGet body "comment")) = true
      · have hval : gcPost GcEndpoint.newC st body now =
            (st,
             ({ status := 400,
                body := jobj [("error", jstr "Missing required fields"),
                              ("required", jarr [jstr "gameId", jstr "comment"])] } :
               HttpResponse),
             ([] : List Delivery)) := by
          show postGameCommentNew st body now = _
          simp only [postGameCommentNew, if_pos htop]
        rw [hval]
        exact ⟨rfl, rfl, rfl, fun _ => rfl⟩
      · have htop2 := htop
        simp only [Bool.or_eq_true, not_or] at htop2
        have h2 := h
        simp only [gcMissing, Bool.or_eq_true] at h2
        have hnested : (!truthyOpt (jsGetOpt (jsGet body "comment") "id")
            || !truthyOpt (jsGetOpt (jsGet body "comment") "text")) = true := by
          rcases h2 with ((h2 | h2) | h2) | h2
          · exact absurd h2 htop2.1
          · exact absurd h2 htop2.2
          · exact Bool.or_eq_true_iff.mpr (.inl h2)
          · exact Bool.or_eq_true_iff.mpr (.inr h2)
        have hval : gcPost GcEndpoint.newC st body now =
            (st,
             ({ status := 400,
                body := jobj [("error", jstr "Comment must have id and text fields")] } :
               HttpResponse),
             ([] : List Delivery)) := by
          show postGameCommentNew st body now = _
          simp only [postGameCommentNew, if_neg htop, if_pos hnested]
        rw [hval]
        exact ⟨rfl, rfl, rfl, fun hh => absurd hh htop⟩
  | editC =>
      by_cases htop : (!truthyOpt (jsGet body "gameId")
          || !truthyOpt (jsGet body "comment")) = true
      · have hval : gcPost GcEndpoint.editC st body now =
            (st,
             ({ status := 400,
                body := jobj [("error", jstr "Missing required fields"),
                              ("required", jarr [jstr "gameId", jstr "comment"])] } :
               HttpResponse),
             ([] : List Delivery)) := by
          show postGameCommentEdit st body now = _
          simp only [postGameCommentEdit, if_pos htop]
        rw [hval]
        exact ⟨rfl, rfl, rfl, fun _ => rfl⟩
      · have htop2 := htop
        simp only [Bool.or_eq_true, not_or] at htop2
        have h2 := h
        simp only [gcMissing, Bool.or_eq_true] at h2
        have hnested : (!truthyOpt (jsGetOpt (jsGet body "comment") "id")) = true := by
          rcases h2 with (h2 | h2) | h2
          · exact absurd h2 htop2.1
          · exact absurd h2 htop2.2
          · exact h2
        have hval : gcPost GcEndpoint.editC st body now =
            (st,
             ({ status := 400,
                body := jobj [("error", jstr "Comment must have id field")] } :
               HttpResponse),
             ([] : List Delivery)) := by
          show postGameCommentEdit st body now = _
          simp only [postGameCommentEdit, if_neg htop, if_pos hnested]
        rw [hval]
        exact ⟨rfl, rfl, rfl, fun hh => absurd hh htop⟩
  | deleteC =>
      have htop : (!truthyOpt (jsGet body "gameId")
          || !truthyOpt (jsGet body "commentId")) = true := h
      have hval : gcPost GcEndpoint.deleteC st body now =
          (st,
           ({ status := 400,
              body := jobj [("error", jstr "Missing required fields"),
                            ("required", jarr [jstr "gameId", jstr "commentId"])] } :
             HttpResponse),
           ([] : List Delivery)) := by
        show postGameCommentDelete st body now = _
        simp only [postGameCommentDelete, if_pos htop]
      rw [hval]
      exact ⟨rfl, rfl, rfl, fun _ => rfl⟩

/-- C4, witness: the delete endpoint rejects `{gameId: 123}` with 400,
the enumerated `required` list, no deliveries and no state change. -/
theorem post_validation_failure_witness :
    (gcPost .deleteC stTwoInGame bodyDeleteMissing "T").1 = stTwoInGame ∧
    (gcPost .deleteC stTwoInGame bodyDeleteMissing "T").2.1.status = 400 ∧
    (gcPost .deleteC stTwoInGame bodyDeleteMissing "T").2.2 = [] ∧
    (gcTopMissing .deleteC bodyDeleteMissing = true →
      jsGet (gcPost .deleteC stTwoInGame bodyDeleteMissing "T").2.1.body "required" =
        some (gcRequired .deleteC)) :=
  post_validation_failure .deleteC stTwoInGame bodyDeleteMissing "T" rfl

/-- C4, counterexample to the claim as stated: a body missing the
required `comment.id` gets a 400 whose body carries no enumerated
`required` list, only an error message. -/
theorem post_validation_no_required_list_counterexample :
    jsGetOpt (jsGet bodyNoCommentId "comment") "id" = none ∧
    (postGameCommentNew stTwoInGame bodyNoCommentId "T").2.1.status = 400 ∧
    jsGet (postGameCommentNew stTwoInGame bodyNoCommentId "T").2.1.body "required" =
      none :=
  ⟨rfl, rfl, rfl⟩

/-- C10: because the endpoints test required fields with JS truthiness,
a request whose required numeric field is present but `0` (`gameId: 0`,
`commentId: 0`, `comment.id: 0`) or whose `comment.text` is the empty
string is answered 400 with no broadcast and no state change, although
the field is present in the body. -/
theorem zero_field_rejected (e : GcEndpoint) (st : ServerState) (body : JVal)
    (now : String) (h : zeroFieldPresent e body = true) :
    (gcPost e st body now).1 = st ∧
    (gcPost e st body now).2.1.status = 400 ∧
    (gcPost e st body now).2.2 = [] := by
  cases e with
  | newC =>
      by_cases htop : (!truthyOpt (jsGet body "gameId")
          || !truthyOpt (jsGet body "comment")) = true
      · have hval : gcPost GcEndpoint.newC st body now =
            (st,
             ({ status := 400,
                body := jobj [("error", jstr "Missing required fields"),
                              ("required", jarr [jstr "gameId", jstr "comment"])] } :
               HttpResponse),
             ([] : List Delivery)) := by
          show postGameCommentNew st body now = _
          simp only [postGameCommentNew, if_pos htop]
        rw [hval]
        exact ⟨rfl, rfl, rfl⟩
      · have h2 := h
        simp only [zeroFieldPresent, Bool.or_eq_true] at h2
        have hnested : (!truthyOpt (jsGetOpt (jsGet body "comment") "id")
            || !truthyOpt (jsGetOpt (jsGet body "comment") "text")) = true := by
          rcases h2 with (h2 | h2) | h2
          · exact absurd (Bool.or_eq_true_iff.mpr
              (.inl (by simp [truthyOpt_of_isZeroNum h2]))) htop
          · exact Bool.or_eq_true_iff.mpr (.inl (by simp [truthyOpt_of_isZeroNum h2]))
          · exact Bool.or_eq_true_iff.mpr (.inr (by simp [truthyOpt_of_isEmptyStr h2]))
        have hval : gcPost GcEndpoint.newC st body now =
            (st,
             ({ status := 400,
                body := jobj [("error", jstr "Comment must have id and text fields")] } :
               HttpResponse),
             ([] : List Delivery)) := by
          show postGameCommentNew st body now = _
          simp only [postGameCommentNew, if_neg htop, if_pos hnested]
        rw [hval]
        exact ⟨rfl, rfl, rfl⟩
  | editC =>
      by_cases htop : (!truthyOpt (jsGet body "gameId")
          || !truthyOpt (jsGet body "comment")) = true
      · have hval : gcPost GcEndpoint.editC st body now =
            (st,
             ({ status := 400,
                body := jobj [("error", jstr "Missing required fields"),
                              ("required", jarr [jstr "gameId", jstr "comment"])] } :
               HttpResponse),
             ([] : List Delivery)) := by
          show postGameCommentEdit st body now = _
          simp only [postGameCommentEdit, if_pos htop]
        rw [hval]
        exact ⟨rfl, rfl, rfl⟩
      · have h2 := h
        simp only [zeroFieldPresent, Bool.or_eq_true] at h2
        have hnested : (!truthyOpt (jsGetOpt (jsGet body "comment") "id")) = true := by
          rcases h2 with h2 | h2
          · exact absurd (Bool.or_eq_true_iff.mpr
              (.inl (by simp [truthyOpt_of_isZeroNum h2]))) htop
          · simp [truthyOpt_of_isZeroNum h2]
        have hval : gcPost GcEndpoint.editC st body now =
            (st,
             ({ status := 400,
                body := jobj [("error", jstr "Comment must have id field")] } :
               HttpResponse),
             ([] : List Delivery)) := by
          show postGameCommentEdit st body now = _
          simp only [postGameCommentEdit, if_neg htop, if_pos hnested]
        rw [hval]
        exact ⟨rfl, rfl, rfl⟩
  | deleteC =>
      have h2 := h
      simp only [zeroFieldPresent, Bool.or_eq_true] at h2
      have htop : (!truthyOpt (jsGet body "gameId")
          || !truthyOpt (jsGet body "commentId")) = true := by
        rcases h2 with h2 | h2
        · exact Bool.or_eq_true_iff.mpr (.inl (by simp [truthyOpt_of_isZeroNum h2]))
        · exact Bool.or_eq_true_iff.mpr (.inr (by simp [truthyOpt_of_isZeroNum h2]))
      have hval : gcPost GcEndpoint.deleteC st body now =
          (st,
           ({ status := 400,
              body := jobj [("error", jstr "Missing required fields"),
                            ("required", jarr [jstr "gameId", jstr "commentId"])] } :
             HttpResponse),
           ([] : List Delivery)) := by
        show postGameCommentDelete st body now = _
        simp only [postGameCommentDelete, if_pos htop]
      rw [hval]
      exact ⟨rfl, rfl, rfl⟩

/-- C10, witness: the new-comment endpoint rejects the zero `gameId`
body with 400, no deliveries and no state change. -/
theorem zero_field_rejected_witness :
    (gcPost .newC stTwoInGame bodyZeroField "T").1 = stTwoInGame ∧
    (gcPost .newC stTwoInGame bodyZeroField "T").2.1.status = 400 ∧
    (gcPost .newC stTwoInGame bodyZeroField "T").2.2 = [] :=
  zero_field_rejected .newC stTwoInGame bodyZeroField "T" rfl
